import Mathlib

set_option linter.unusedSectionVars false

/-!
Verification development for the endpoint-monitoring program (`main.py`).

The program periodically probes HTTP endpoints declared in YAML files,
classifies each probe as UP/DOWN, and keeps per-endpoint and per-domain
availability counters.  This file gives a shallow embedding of the
program's data model and operations:

* Python `dict`s become association lists with replace-on-insert
  semantics (`dlookup` / `dinsert` / `derase`);
* `urllib.parse.urlparse(url).netloc` is embedded over `List Char`
  following its documented behaviour (scheme split at the first `:`
  when the prefix is a valid scheme, netloc only after `//`, ended by
  `/`, `?` or `#`);
* the filesystem and the network are explicit inputs: `_load_file`
  receives the observed file content (`FsObs`), and `check_health`
  receives the observed HTTP outcome (`HttpOutcome`);
* exceptions become explicit values: the exceptions `_load_file`
  catches are `FsObs.missing` (FileNotFoundError) and
  `Doc.yamlError` (yaml.YAMLError); the uncaught `TypeError` raised by
  `EndpointConfig(**ep)` when a required argument (`name` or `url`) is
  absent is modelled by `PyError.typeError` returned next to the
  mutated state.
-/

namespace Monitor

/-! ### Python dict embedding

An association list with the key semantics of a Python `dict`:
assignment replaces the value in place when the key is present and
appends otherwise, `del` removes the key.  All states built by the
program have nodup keys, which `dinsert`/`derase` preserve. -/

def dlookup {κ ν : Type} [DecidableEq κ] (k : κ) : List (κ × ν) → Option ν
  | [] => none
  | (k', v) :: rest => if k' = k then some v else dlookup k rest

def dinsert {κ ν : Type} [DecidableEq κ] (k : κ) (v : ν) : List (κ × ν) → List (κ × ν)
  | [] => [(k, v)]
  | (k', v') :: rest => if k' = k then (k, v) :: rest else (k', v') :: dinsert k v rest

def derase {κ ν : Type} [DecidableEq κ] (k : κ) : List (κ × ν) → List (κ × ν)
  | [] => []
  | (k', v') :: rest => if k' = k then derase k rest else (k', v') :: derase k rest

def dkeys {κ ν : Type} (l : List (κ × ν)) : List κ :=
  l.map Prod.fst

section DictLemmas

variable {κ ν : Type} [DecidableEq κ]

@[simp] theorem dkeys_nil : dkeys ([] : List (κ × ν)) = [] := rfl

@[simp] theorem dkeys_cons {p : κ × ν} {l : List (κ × ν)} :
    dkeys (p :: l) = p.1 :: dkeys l := rfl

theorem dlookup_cons_self {k : κ} {v : ν} {l : List (κ × ν)} :
    dlookup k ((k, v) :: l) = some v := by
  simp [dlookup]

theorem dlookup_cons_ne {k k' : κ} {v : ν} {l : List (κ × ν)} (h : k' ≠ k) :
    dlookup k ((k', v) :: l) = dlookup k l := by
  simp [dlookup, h]

theorem dinsert_cons_self {k : κ} {v v' : ν} {l : List (κ × ν)} :
    dinsert k v ((k, v') :: l) = (k, v) :: l := by
  simp [dinsert]

theorem dinsert_cons_ne {k k' : κ} {v v' : ν} {l : List (κ × ν)} (h : k' ≠ k) :
    dinsert k v ((k', v') :: l) = (k', v') :: dinsert k v l := by
  simp [dinsert, h]

theorem derase_cons_self {k : κ} {v : ν} {l : List (κ × ν)} :
    derase k ((k, v) :: l) = derase k l := by
  simp [derase]

theorem derase_cons_ne {k k' : κ} {v : ν} {l : List (κ × ν)} (h : k' ≠ k) :
    derase k ((k', v) :: l) = (k', v) :: derase k l := by
  simp [derase, h]

theorem mem_dkeys {l : List (κ × ν)} {n : κ} :
    n ∈ dkeys l ↔ ∃ v, (n, v) ∈ l := by
  constructor
  · intro h
    rcases List.mem_map.mp h with ⟨p, hp, hq⟩
    exact ⟨p.2, by cases p; cases hq; exact hp⟩
  · rintro ⟨v, hv⟩
    exact List.mem_map.mpr ⟨(n, v), hv, rfl⟩

theorem mem_derase {l : List (κ × ν)} {k : κ} {q : κ × ν} :
    q ∈ derase k l ↔ q ∈ l ∧ q.1 ≠ k := by
  induction l with
  | nil => simp [derase]
  | cons p rest ih =>
    obtain ⟨k', v'⟩ := p
    by_cases hk : k' = k
    · subst hk
      rw [derase_cons_self, ih]
      simp only [List.mem_cons]
      constructor
      · rintro ⟨h1, h2⟩
        exact ⟨Or.inr h1, h2⟩
      · rintro ⟨h1 | h1, h2⟩
        · exact absurd (show q.1 = k' by rw [h1]) h2
        · exact ⟨h1, h2⟩
    · rw [derase_cons_ne hk]
      simp only [List.mem_cons, ih]
      constructor
      · rintro (h | ⟨h1, h2⟩)
        · refine ⟨Or.inl h, ?_⟩
          rw [h]
          exact hk
        · exact ⟨Or.inr h1, h2⟩
      · rintro ⟨h1 | h1, h2⟩
        · exact Or.inl h1
        · exact Or.inr ⟨h1, h2⟩

theorem mem_dkeys_derase {l : List (κ × ν)} {k n : κ} :
    n ∈ dkeys (derase k l) ↔ n ∈ dkeys l ∧ n ≠ k := by
  constructor
  · intro h
    rcases mem_dkeys.mp h with ⟨v, hv⟩
    have h' := mem_derase.mp hv
    exact ⟨mem_dkeys.mpr ⟨v, h'.1⟩, h'.2⟩
  · rintro ⟨h1, h2⟩
    rcases mem_dkeys.mp h1 with ⟨v, hv⟩
    exact mem_dkeys.mpr ⟨v, mem_derase.mpr ⟨hv, h2⟩⟩

theorem dlookup_dinsert_ne {l : List (κ × ν)} {k n : κ} {v : ν} (h : n ≠ k) :
    dlookup n (dinsert k v l) = dlookup n l := by
  induction l with
  | nil => simp [dinsert, dlookup, Ne.symm h]
  | cons p rest ih =>
    obtain ⟨k', v'⟩ := p
    by_cases hk : k' = k
    · subst hk
      rw [dinsert_cons_self, dlookup_cons_ne (Ne.symm h), dlookup_cons_ne (Ne.symm h)]
    · rw [dinsert_cons_ne hk]
      by_cases hn : k' = n
      · subst hn
        rw [dlookup_cons_self, dlookup_cons_self]
      · rw [dlookup_cons_ne hn, dlookup_cons_ne hn]
        exact ih

theorem dlookup_derase_ne {l : List (κ × ν)} {k n : κ} (h : n ≠ k) :
    dlookup n (derase k l) = dlookup n l := by
  induction l with
  | nil => simp [derase]
  | cons p rest ih =>
    obtain ⟨k', v'⟩ := p
    by_cases hk : k' = k
    · subst hk
      rw [derase_cons_self, ih, dlookup_cons_ne (Ne.symm h)]
    · rw [derase_cons_ne hk]
      by_cases hn : k' = n
      · subst hn
        rw [dlookup_cons_self, dlookup_cons_self]
      · rw [dlookup_cons_ne hn, dlookup_cons_ne hn]
        exact ih

theorem dlookup_eq_none_of_not_mem {k : κ} :
    ∀ {l : List (κ × ν)}, k ∉ dkeys l → dlookup k l = none := by
  intro l
  induction l with
  | nil => intro _; rfl
  | cons p rest ih =>
    obtain ⟨k', v'⟩ := p
    intro h
    rw [dkeys_cons, List.mem_cons, not_or] at h
    have hk : k' ≠ k := fun e => h.1 e.symm
    rw [dlookup_cons_ne hk]
    exact ih h.2

theorem mem_dlookup {k : κ} {v : ν} :
    ∀ {l : List (κ × ν)}, (dkeys l).Nodup → (k, v) ∈ l → dlookup k l = some v := by
  intro l
  induction l with
  | nil => intro _ h; cases h
  | cons p rest ih =>
    obtain ⟨k', v'⟩ := p
    intro hnd h
    rw [dkeys_cons, List.nodup_cons] at hnd
    rcases List.mem_cons.mp h with h | h
    · injection h with h1 h2
      subst h1
      subst h2
      rw [dlookup_cons_self]
    · have hk : k' ≠ k := by
        intro e
        subst e
        exact hnd.1 (mem_dkeys.mpr ⟨v, h⟩)
      rw [dlookup_cons_ne hk]
      exact ih hnd.2 h

theorem dlookup_value_unique {l : List (κ × ν)} {k : κ} {a b : ν}
    (hnd : (dkeys l).Nodup) (ha : (k, a) ∈ l) (hb : (k, b) ∈ l) : a = b := by
  have h1 := mem_dlookup hnd ha
  have h2 := mem_dlookup hnd hb
  rw [h1] at h2
  exact Option.some.inj h2

theorem mem_dinsert_weak {k : κ} {v : ν} {q : κ × ν} :
    ∀ {l : List (κ × ν)}, q ∈ dinsert k v l → q = (k, v) ∨ q ∈ l := by
  intro l
  induction l with
  | nil => intro h; simpa [dinsert] using h
  | cons p rest ih =>
    obtain ⟨k', v'⟩ := p
    intro h
    by_cases hk : k' = k
    · subst hk
      rw [dinsert_cons_self] at h
      rcases List.mem_cons.mp h with h | h
      · exact Or.inl h
      · exact Or.inr (List.mem_cons_of_mem _ h)
    · rw [dinsert_cons_ne hk] at h
      rcases List.mem_cons.mp h with h | h
      · refine Or.inr ?_
        rw [h]
        exact List.mem_cons_self _ _
      · rcases ih h with h | h
        · exact Or.inl h
        · exact Or.inr (List.mem_cons_of_mem _ h)

end DictLemmas

/-! ### URL parsing

Embedding of `urllib.parse.urlparse(url).netloc` over `List Char`,
following the behaviour of `urlsplit` on the Python versions able to run
this file (>= 3.12, required by the nested f-string quotes at line 262):
the input is first sanitized — leading WHATWG C0-control or space
characters are stripped, and every tab, CR and LF is removed — then the
scheme is split off when the text before the first `:` is a nonempty run
of scheme characters starting with a letter, and the netloc is present
only when the remainder starts with `//`, extending to the next `/`,
`?` or `#`. -/

/-- WHATWG C0 control or space: the characters `urlsplit` strips from
the front of the URL. -/
def c0ControlOrSpace (c : Char) : Bool :=
  c.val ≤ 32

/-- The bytes `urlsplit` deletes wherever they occur: tab, CR, LF. -/
def tabOrNewline (c : Char) : Bool :=
  c == '\t' || c == '\r' || c == '\n'

/-- The input sanitization `urlsplit` performs before any parsing. -/
def pySanitizeUrl (cs : List Char) : List Char :=
  (cs.dropWhile c0ControlOrSpace).filter (fun c => !tabOrNewline c)

def schemeChar (c : Char) : Bool :=
  c.isAlphanum || c == '+' || c == '-' || c == '.'

def pySplitScheme (cs : List Char) : List Char :=
  match cs.dropWhile (fun c => c != ':') with
  | ':' :: r =>
    match cs.takeWhile (fun c => c != ':') with
    | [] => cs
    | c0 :: pre => if c0.isAlpha && (c0 :: pre).all schemeChar then r else cs
  | _ => cs

def pyNetloc (cs : List Char) : List Char :=
  match pySplitScheme cs with
  | '/' :: '/' :: r => r.takeWhile (fun c => c != '/' && c != '?' && c != '#')
  | _ => []

/-- `EndpointConfig.get_domain`: `urlparse(url).netloc.split(":")[0]`,
i.e. the netloc of the sanitized URL truncated at its first colon. -/
def get_domain (url : String) : String :=
  String.mk ((pyNetloc (pySanitizeUrl url.data)).takeWhile (fun c => c != ':'))

/-! ### Data model -/

/-- The up/total counter pair stored in `EndpointConfig.stats` (and, with
the same shape, as a `domain_stats` value). -/
structure Stats where
  up : Nat
  total : Nat
deriving DecidableEq

/-- One endpoint declaration as parsed from a YAML document.  `name` and
`url` are required by the configuration format but may be absent from a
concrete document; `method`, `headers` and `body` are optional.  An
absent key is `none`. -/
structure Decl where
  name : Option String
  url : Option String
  method : Option String
  headers : Option (List (String × String))
  body : Option String
deriving DecidableEq

/-- One monitored endpoint, mirroring `EndpointConfig.__init__`.  Note
that the accumulated statistics live inside the object itself. -/
structure EndpointConfig where
  name : Option String
  url : String
  method : String
  headers : List (String × String)
  body : Option String
  file_path : Option String
  domain : String
  stats : Stats
deriving DecidableEq

/-- The one uncaught exception relevant to configuration loading:
`TypeError` from `EndpointConfig(**{**ep, "file_path": file_path})` when
a required argument — `name` or `url`, neither of which has a default in
`EndpointConfig.__init__` — is absent from the declaration. -/
inductive PyError
  | typeError
deriving DecidableEq

/-- Python's `str.upper` (the configured methods are ASCII). -/
def pyUpper (s : String) : String :=
  String.mk (s.data.map Char.toUpper)

/-- `EndpointConfig(**{**ep, "file_path": file_path})`: raises
`TypeError` when `name` or `url` is absent (both are required positional
parameters of `EndpointConfig.__init__`, line 39, with no defaults; the
`ep.get("name")` on line 114 only feeds the tracking set); `method`
defaults to `"GET"` and is upper-cased; `headers` defaults to the empty
mapping; `domain` is derived from the url; `stats` starts at zero. -/
def mkEndpoint (d : Decl) (fp : String) : Except PyError EndpointConfig :=
  match d.name, d.url with
  | some _, some u =>
    .ok { name := d.name
          url := u
          method := pyUpper (d.method.getD "GET")
          headers := d.headers.getD []
          body := d.body
          file_path := some fp
          domain := get_domain u
          stats := { up := 0, total := 0 } }
  | _, _ => .error .typeError

/-- `EndpointConfig.update_stats`: `total += 1`, and `up += 1` when the
health-check result is `"UP"`. -/
def update_stats (e : EndpointConfig) (result : String) : EndpointConfig :=
  { e with stats := { up := if result = "UP" then e.stats.up + 1 else e.stats.up
                      total := e.stats.total + 1 } }

/-- Python's builtin `round` on an exact rational: round half to even. -/
def pythonRound (q : ℚ) : ℤ :=
  let f := ⌊q⌋
  if q - f < 1 / 2 then f
  else if 1 / 2 < q - f then f + 1
  else if f % 2 = 0 then f else f + 1

/-- `EndpointConfig.availability_percentage`:
`round(100 * up / total)` when `total > 0`, else `0`. -/
def availability_percentage (e : EndpointConfig) : ℤ :=
  if 0 < e.stats.total then pythonRound ((100 * e.stats.up : ℚ) / (e.stats.total : ℚ))
  else 0

/-! ### The prober (`check_health`)

The network is an explicit input: an `HttpOutcome` is what the awaited
`session.get` call produced — either a response (status code and elapsed
time, the latter an exact rational in seconds) or a raised exception
(timeout, connection failure, or any other `Exception`; the function
catches them all, so it is total and never propagates).  The observable
effects — the returned classification, the status gauge value, the label
under which the status-code counter is incremented, and the recorded
response time — are collected in `ProbeEffects`. -/

inductive HttpOutcome
  | response (status : Nat) (elapsed : ℚ)
  | exn
deriving DecidableEq

structure ProbeEffects where
  result : String
  status_gauge : Nat
  code_label : String
  response_time : Option ℚ
deriving DecidableEq

/-- `check_health(session, endpoint, response_time_threshold=0.5)`.  The
request itself is `build_request`; this function maps the observed
outcome to the classification and metric effects of lines 191-219. -/
def check_health (o : HttpOutcome) (response_time_threshold : ℚ := 1 / 2) : ProbeEffects :=
  match o with
  | .response status elapsed =>
    if 200 ≤ status ∧ status < 300 ∧ elapsed < response_time_threshold then
      { result := "UP", status_gauge := 1, code_label := toString status,
        response_time := some elapsed }
    else
      { result := "DOWN", status_gauge := 0, code_label := toString status,
        response_time := some elapsed }
  | .exn =>
    { result := "DOWN", status_gauge := 0, code_label := "error", response_time := none }

/-- The HTTP request that one `check_health` call issues.  Line 195 is
`session.get(endpoint.url, timeout=1)`: an aiohttp GET with no extra
headers and no body, regardless of the endpoint configuration. -/
structure HttpRequest where
  method : String
  url : String
  headers : List (String × String)
  body : Option String
  timeout : Nat
deriving DecidableEq

def build_request (e : EndpointConfig) : HttpRequest :=
  { method := "GET", url := e.url, headers := [], body := none, timeout := 1 }

/-! ### The configuration loader -/

/-- Parse outcome of the `try` block's file read: `yaml.safe_load` may
raise a `YAMLError` (caught), or it yields a list of declarations. -/
inductive Doc
  | yamlError
  | decls (ds : List Decl)
deriving DecidableEq

/-- What the filesystem shows for one path while `_load_file` runs: the
file may be gone (`getmtime`/`open` raise FileNotFoundError, caught), or
present with a modification time and a content. -/
inductive FsObs
  | missing
  | present (mtime : Nat) (content : Doc)
deriving DecidableEq

/-- The `ConfigLoader` state: the `endpoints` mapping (keyed by the
declared name; the key type is `Option String` because line 114 reads
`ep.get("name")`, though a successful construction at line 115 requires
the name to be present, so loaded keys are always `some`), the per-file
name collections `file_endpoints` (Python stores a `set`; the embedding
keeps the insertion list and uses it only up to membership), and the
recorded `mod_times`. -/
structure ConfigLoader where
  endpoints : List (Option String × EndpointConfig)
  file_endpoints : List (String × List (Option String))
  mod_times : List (String × Nat)
deriving DecidableEq

def initLoader : ConfigLoader :=
  { endpoints := [], file_endpoints := [], mod_times := [] }

/-- Delete from `endpoints` every name in `names`
(`for name in ...: if name in self.endpoints: del self.endpoints[name]`). -/
def removeNames (eps : List (Option String × EndpointConfig))
    (names : List (Option String)) : List (Option String × EndpointConfig) :=
  names.foldl (fun acc n => derase n acc) eps

/-- `ConfigLoader._remove_file_endpoints`. -/
def _remove_file_endpoints (st : ConfigLoader) (fp : String) : ConfigLoader :=
  match dlookup fp st.file_endpoints with
  | none => st
  | some names =>
    { endpoints := removeNames st.endpoints names
      file_endpoints := derase fp st.file_endpoints
      mod_times := derase fp st.mod_times }

/-- The `for ep in config_data` loop of `_load_file`: construct an
`EndpointConfig` per declaration, assign it into `endpoints`, and collect
the declared name.  A `TypeError` from a declaration aborts the loop,
keeping the mutations made so far (state is mutated in place), uncaught. -/
def insertDecls (eps : List (Option String × EndpointConfig))
    (seen : List (Option String)) (fp : String) :
    List Decl → List (Option String × EndpointConfig) × List (Option String) × Option PyError
  | [] => (eps, seen, none)
  | d :: rest =>
    match mkEndpoint d fp with
    | .error e => (eps, seen, some e)
    | .ok ep => insertDecls (dinsert d.name ep eps) (seen ++ [d.name]) fp rest

/-- `ConfigLoader._load_file` with the filesystem abstracted into `obs`.
A missing file (FileNotFoundError, raised by `getmtime` before the
mod-time comparison) and a `yaml.YAMLError` are caught: the file's
previously loaded endpoints are dropped.  An unchanged mod time returns
without touching anything.  On a parsed document the declarations are
loaded, names that disappeared from this file are deleted, and the name
set and mod time are recorded.  An uncaught `TypeError` (declaration
missing `url`) leaves `file_endpoints` and `mod_times` untouched and
propagates to the caller. -/
def _load_file (st : ConfigLoader) (fp : String) (obs : FsObs) :
    ConfigLoader × Option PyError :=
  match obs with
  | .missing => (_remove_file_endpoints st fp, none)
  | .present mtime content =>
    if dlookup fp st.mod_times = some mtime then (st, none)
    else
      match content with
      | .yamlError => (_remove_file_endpoints st fp, none)
      | .decls ds =>
        match insertDecls st.endpoints [] fp ds with
        | (eps, _, some e) => ({ st with endpoints := eps }, some e)
        | (eps, newNames, none) =>
          let oldNames := (dlookup fp st.file_endpoints).getD []
          let removed := oldNames.filter (fun n => decide (n ∉ newNames))
          ({ endpoints := removeNames eps removed
             file_endpoints := dinsert fp newNames st.file_endpoints
             mod_times := dinsert fp mtime st.mod_times }, none)

/-- One filesystem observation during `load_configs`/`refresh`: either a
currently enumerated `.yaml` file (handled by `_load_file`; the mod-time
guard is re-checked inside) or a previously tracked file that is no
longer enumerated (handled by `_remove_file_endpoints`). -/
inductive FsEvent
  | fileSeen (fp : String) (obs : FsObs)
  | fileGone (fp : String)
deriving DecidableEq

def applyEvent (st : ConfigLoader) (ev : FsEvent) : ConfigLoader × Option PyError :=
  match ev with
  | .fileSeen fp obs => _load_file st fp obs
  | .fileGone fp => (_remove_file_endpoints st fp, none)

/-- Precondition under which the amended C5 invariant is preserved: a
successfully parsed document declares both required fields, `name` and
`url`, for every entry (so no uncaught TypeError aborts the loop
mid-way) and no name currently owned by a different source. -/
@[reducible] def GoodEvent (st : ConfigLoader) (ev : FsEvent) : Prop :=
  match ev with
  | .fileSeen fp (.present _ (.decls ds)) =>
      (∀ d ∈ ds, (d.name).isSome ∧ (d.url).isSome) ∧
      (∀ p ∈ st.file_endpoints, p.1 ≠ fp → ∀ d ∈ ds, d.name ∉ p.2)
  | _ => True

@[reducible] def GoodSeq (st : ConfigLoader) : List FsEvent → Prop
  | [] => True
  | ev :: evs => GoodEvent st ev ∧ GoodSeq (applyEvent st ev).1 evs

/-! ### The polling cycle -/

abbrev DomainStats := List (String × Stats)

/-- `clean_domains(endpoints)`: delete every `domain_stats` entry whose
key is not among the domains of the current endpoints (the list of
deletions of the source loop equals a filter). -/
def clean_domains (ds : DomainStats) (endpoints : List EndpointConfig) : DomainStats :=
  let active := endpoints.map (fun e => e.domain)
  ds.filter (fun p => decide (p.1 ∈ active))

/-- One `domain_stats[endpoint.domain]` update of the result loop:
the `defaultdict` creates a zero entry on first access, `total` is
always incremented, `up` only when the result is `"UP"`. -/
def record_domain (ds : DomainStats) (domain : String) (result : String) : DomainStats :=
  let cur := (dlookup domain ds).getD { up := 0, total := 0 }
  dinsert domain { up := if result = "UP" then cur.up + 1 else cur.up,
                   total := cur.total + 1 } ds

/-- One cycle input: the endpoint list after `refresh`
(`config_loader.endpoints.values()`) and the gathered `check_health`
results, paired positionally exactly as `zip(endpoints, results)`. -/
structure CycleInput where
  endpoints : List EndpointConfig
  results : List String
deriving DecidableEq

/-- The mutation of one non-empty cycle (lines 246-257): prune domains
first, then fold each result into the endpoint's own stats and into its
domain's stats. -/
def run_cycle (ds : DomainStats) (c : CycleInput) : DomainStats × List EndpointConfig :=
  let ds1 := clean_domains ds c.endpoints
  let pairs := c.endpoints.zip c.results
  (pairs.foldl (fun a p => record_domain a p.1.domain p.2) ds1,
   pairs.map (fun p => update_stats p.1 p.2))

/-- `monitor_endpoints`, driven by the list of cycle inputs it will
observe.  Returns the final domain statistics, the number of cycles that
ran their probe/record phase, and the total number of probes launched.
An empty endpoint set after a refresh breaks out of the loop at once,
before `clean_domains`, before any probe and before any stat update. -/
def monitor_endpoints (ds : DomainStats) : List CycleInput → DomainStats × Nat × Nat
  | [] => (ds, 0, 0)
  | c :: rest =>
    if c.endpoints.isEmpty then (ds, 0, 0)
    else
      let next := monitor_endpoints (run_cycle ds c).1 rest
      (next.1, next.2.1 + 1, next.2.2 + c.endpoints.length)




/-! ### Concrete data used by witnesses and counterexamples -/

/-- Declaration of an endpoint `x` as a configuration file provides it. -/
def declX : Decl :=
  { name := some "x", url := some "http://svc1.example.com/health",
    method := none, headers := none, body := none }

/-- A declaration missing the required `url` key. -/
def declNoUrl : Decl :=
  { name := some "x", url := none, method := none, headers := none, body := none }

/-- A declaration missing the required `name` key. -/
def declNoName : Decl :=
  { name := none, url := some "http://svc1.example.com/health",
    method := none, headers := none, body := none }

/-- A POST declaration with headers and a body. -/
def declPost : Decl :=
  { name := some "p", url := some "http://svc2.example.com/submit",
    method := some "post",
    headers := some [("Authorization", "token abc")],
    body := some "payload" }

/-- Unreachable placeholder for extracting `Except.ok` values. -/
def fallbackEndpoint : EndpointConfig :=
  { name := none, url := "", method := "", headers := [], body := none,
    file_path := none, domain := "", stats := { up := 0, total := 0 } }

def epX : EndpointConfig :=
  match mkEndpoint declX "a.yaml" with
  | .ok e => e
  | .error _ => fallbackEndpoint

def epPost : EndpointConfig :=
  match mkEndpoint declPost "a.yaml" with
  | .ok e => e
  | .error _ => fallbackEndpoint

/-- `epX` after three recorded results: UP, DOWN, DOWN. -/
def epX3 : EndpointConfig :=
  List.foldl update_stats epX ["UP", "DOWN", "DOWN"]

/-- C2: the claim that a probe issues the HTTP request with the
endpoint's configured method, headers, and body is false of the code:
`check_health` performs `session.get(endpoint.url, timeout=1)`, so the
issued request is a GET with no extra headers and no body even for an
endpoint configured with method POST, headers and a body.  Evaluated at
the concrete endpoint `epPost` (whose configuration stores exactly the
normalized method, headers and body that are then ignored). -/
theorem C2_request_ignores_config :
    epPost.method = "POST" ∧
    epPost.headers = [("Authorization", "token abc")] ∧
    epPost.body = some "payload" ∧
    (build_request epPost).method = "GET" ∧
    (build_request epPost).headers = [] ∧
    (build_request epPost).body = none := by
  decide

/-! ### C3 — probe classification -/

theorem check_health_response (status : Nat) (elapsed thr : ℚ) :
    check_health (.response status elapsed) thr =
      if 200 ≤ status ∧ status < 300 ∧ elapsed < thr then
        { result := "UP", status_gauge := 1, code_label := toString status,
          response_time := some elapsed }
      else
        { result := "DOWN", status_gauge := 0, code_label := toString status,
          response_time := some elapsed } := rfl

/-- C3: a probe is UP iff the response status is 2xx and the elapsed
time is strictly below the response-time threshold (default 0.5s); any
other response is DOWN; a transport-level exception yields DOWN with the
status-code counter labelled "error" instead of a numeric code.  The
function is total over all outcomes (the `except Exception` arm), so no
exception propagates. -/
theorem C3_classification (status : Nat) (elapsed thr : ℚ) :
    ((check_health (.response status elapsed) thr).result = "UP" ↔
      (200 ≤ status ∧ status < 300 ∧ elapsed < thr))
    ∧ ((check_health (.response status elapsed)).result = "UP" ↔
      (200 ≤ status ∧ status < 300 ∧ elapsed < 1 / 2))
    ∧ ((check_health (.response status elapsed) thr).result = "UP" ∨
      (check_health (.response status elapsed) thr).result = "DOWN")
    ∧ ((check_health (.response status elapsed) thr).code_label = toString status)
    ∧ ((check_health .exn thr).result = "DOWN")
    ∧ ((check_health .exn thr).code_label = "error") := by
  refine ⟨?_, ?_, ?_, ?_, rfl, rfl⟩
  · rw [check_health_response]
    by_cases h : 200 ≤ status ∧ status < 300 ∧ elapsed < thr
    · rw [if_pos h]
      exact iff_of_true rfl h
    · rw [if_neg h]
      exact iff_of_false (by simp) h
  · rw [check_health_response]
    by_cases h : 200 ≤ status ∧ status < 300 ∧ elapsed < 1 / 2
    · rw [if_pos h]
      exact iff_of_true rfl h
    · rw [if_neg h]
      exact iff_of_false (by simp) h
  · rw [check_health_response]
    by_cases h : 200 ≤ status ∧ status < 300 ∧ elapsed < thr
    · rw [if_pos h]
      exact Or.inl rfl
    · rw [if_neg h]
      exact Or.inr rfl
  · rw [check_health_response]
    by_cases h : 200 ≤ status ∧ status < 300 ∧ elapsed < thr
    · rw [if_pos h]
    · rw [if_neg h]

/-- C3 witness: a 200 response in 0.25s with the default threshold is
UP, and the exception outcome is labelled "error". -/
theorem C3_classification_witness :
    (check_health (.response 200 (1 / 4))).result = "UP" ∧
    (check_health .exn).code_label = "error" :=
  ⟨(C3_classification 200 (1 / 4) (1 / 2)).2.1.mpr (by norm_num),
   (C3_classification 0 0 (1 / 2)).2.2.2.2.2⟩

/-! ### C6 — availability formula -/

/-- C6: `availability_percentage` returns `round(100 * up / total)`
(Python's round-half-to-even on the exact ratio) when `total > 0`, and
`0` when `total = 0`. -/
theorem C6_availability (e : EndpointConfig) :
    (0 < e.stats.total →
      availability_percentage e =
        pythonRound ((100 * e.stats.up : ℚ) / (e.stats.total : ℚ)))
    ∧ (e.stats.total = 0 → availability_percentage e = 0) := by
  constructor
  · intro h
    simp only [availability_percentage, if_pos h]
  · intro h
    simp only [availability_percentage, h]
    rw [if_neg (lt_irrefl 0)]

/-- C6 witness: one UP out of three probes reports 33. -/
theorem C6_availability_witness : availability_percentage epX3 = 33 := by
  have h := (C6_availability epX3).1 (by decide)
  rw [h]
  have he : ((100 * epX3.stats.up : ℚ) / (epX3.stats.total : ℚ)) = 100 / 3 := by
    have h1 : epX3.stats.up = 1 := rfl
    have h2 : epX3.stats.total = 3 := rfl
    rw [h1, h2]
    norm_num
  rw [he]
  have hf : ⌊(100 : ℚ) / 3⌋ = 33 := by
    rw [Int.floor_eq_iff]
    norm_num
  simp only [pythonRound]
  rw [hf, if_pos (by norm_num)]

/-! ### C8 — empty refresh stops the loop -/

/-- C8: when a refresh yields no endpoints the loop breaks at once: the
domain statistics are unchanged, zero cycles run their probe phase, zero
probes are launched, and the remaining cycles never run; the halt is the
`break` at line 244, a normal return, not an error. -/
theorem C8_empty_refresh_stops (ds : DomainStats) (c : CycleInput)
    (rest : List CycleInput) (h : c.endpoints = []) :
    monitor_endpoints ds (c :: rest) = (ds, 0, 0) := by
  simp [monitor_endpoints, h]

/-- C8 witness: a loop whose first refresh is empty stops with the
accumulated domain statistics untouched and no probe launched. -/
theorem C8_empty_refresh_stops_witness :
    monitor_endpoints [("svc1.example.com", { up := 1, total := 2 })]
      [{ endpoints := [], results := [] }, { endpoints := [epX], results := ["UP"] }] =
    ([("svc1.example.com", { up := 1, total := 2 })], 0, 0) :=
  C8_empty_refresh_stops _ _ _ rfl

/-! ### C7 — domain pruning -/

theorem dlookup_filter {κ ν : Type} [DecidableEq κ] (pr : κ → Bool)
    (l : List (κ × ν)) (k : κ) :
    dlookup k (l.filter (fun p => pr p.1)) = if pr k then dlookup k l else none := by
  induction l with
  | nil => split <;> rfl
  | cons p rest ih =>
    obtain ⟨k', v'⟩ := p
    by_cases hk : k' = k
    · subst hk
      by_cases hp : pr k' = true
      · rw [List.filter_cons_of_pos (by simpa using hp), dlookup_cons_self,
          if_pos hp, dlookup_cons_self]
      · rw [List.filter_cons_of_neg (by simpa using hp), ih, if_neg hp, if_neg hp]
    · by_cases hp : pr k' = true
      · rw [List.filter_cons_of_pos (by simpa using hp), dlookup_cons_ne hk, ih]
        by_cases hq : pr k = true
        · rw [if_pos hq, if_pos hq, dlookup_cons_ne hk]
        · rw [if_neg hq, if_neg hq]
      · rw [List.filter_cons_of_neg (by simpa using hp), ih]
        by_cases hq : pr k = true
        · rw [if_pos hq, if_pos hq, dlookup_cons_ne hk]
        · rw [if_neg hq, if_neg hq]

theorem dlookup_fold_record (d : String) :
    ∀ (pairs : List (EndpointConfig × String)) (acc : DomainStats),
      (∀ p ∈ pairs, p.1.domain ≠ d) →
      dlookup d (pairs.foldl (fun a p => record_domain a p.1.domain p.2) acc) =
        dlookup d acc := by
  intro pairs
  induction pairs with
  | nil => intro acc _; rfl
  | cons p rest ih =>
    intro acc h
    rw [List.foldl_cons, ih _ (fun q hq => h q (List.mem_cons_of_mem _ hq))]
    have hne : d ≠ p.1.domain := fun e => h p (List.mem_cons_self _ _) e.symm
    simp only [record_domain]
    exact dlookup_dinsert_ne hne

/-- C7: `clean_domains` — run once per cycle, before that cycle's
results are recorded (it is the first step of `run_cycle`) — keeps
exactly the entries whose domain occurs among the domains of the current
endpoint mapping, with their values untouched, and deletes every other
entry; consequently, after the whole cycle, a domain with no live
endpoint has no entry regardless of accumulated history, while entries
of still-active domains survive. -/
theorem C7_prune_domains (ds : DomainStats) (c : CycleInput) (d : String) :
    (dlookup d (clean_domains ds c.endpoints) =
      if d ∈ c.endpoints.map (fun e => e.domain) then dlookup d ds else none)
    ∧ (d ∉ c.endpoints.map (fun e => e.domain) →
      dlookup d (run_cycle ds c).1 = none) := by
  have hmain : dlookup d (clean_domains ds c.endpoints) =
      if d ∈ c.endpoints.map (fun e => e.domain) then dlookup d ds else none := by
    have h := dlookup_filter
      (fun k => decide (k ∈ c.endpoints.map (fun e => e.domain))) ds d
    simp only [decide_eq_true_eq] at h
    simpa [clean_domains] using h
  refine ⟨hmain, ?_⟩
  intro hd
  have hpairs : ∀ p ∈ c.endpoints.zip c.results, (p : EndpointConfig × String).1.domain ≠ d := by
    intro p hp e
    apply hd
    rw [← e]
    exact List.mem_map_of_mem _ (List.of_mem_zip hp).1
  simp only [run_cycle]
  rw [dlookup_fold_record d _ _ hpairs, hmain, if_neg hd]

def dsOld : DomainStats := [("old.example.com", { up := 2, total := 3 })]

def cycX : CycleInput := { endpoints := [epX], results := ["UP"] }

/-- C7 witness: a domain with accumulated history but no live endpoint
has no entry after the cycle. -/
theorem C7_prune_domains_witness :
    dlookup "old.example.com" (run_cycle dsOld cycX).1 = none :=
  (C7_prune_domains dsOld cycX "old.example.com").2 (by decide)

/-! ### C10 — domain totals are positive -/

/-- Every recorded domain entry has a strictly positive total. -/
def DomainTotalsPos (ds : DomainStats) : Prop :=
  ∀ p ∈ ds, 1 ≤ (p : String × Stats).2.total

theorem DomainTotalsPos_record {ds : DomainStats} (dom r : String)
    (h : DomainTotalsPos ds) : DomainTotalsPos (record_domain ds dom r) := by
  intro q hq
  simp only [record_domain] at hq
  rcases mem_dinsert_weak hq with h1 | h1
  · rw [h1]
    exact Nat.succ_le_succ (Nat.zero_le _)
  · exact h q h1

theorem DomainTotalsPos_fold :
    ∀ (pairs : List (EndpointConfig × String)) (acc : DomainStats),
      DomainTotalsPos acc →
      DomainTotalsPos (pairs.foldl (fun a p => record_domain a p.1.domain p.2) acc) := by
  intro pairs
  induction pairs with
  | nil => intro acc h; exact h
  | cons p rest ih =>
    intro acc h
    rw [List.foldl_cons]
    exact ih _ (DomainTotalsPos_record _ _ h)

theorem DomainTotalsPos_clean {ds : DomainStats} (eps : List EndpointConfig)
    (h : DomainTotalsPos ds) : DomainTotalsPos (clean_domains ds eps) := by
  intro q hq
  exact h q (List.mem_filter.mp hq).1

theorem DomainTotalsPos_monitor :
    ∀ (ins : List CycleInput) (ds : DomainStats),
      DomainTotalsPos ds → DomainTotalsPos (monitor_endpoints ds ins).1 := by
  intro ins
  induction ins with
  | nil => intro ds h; exact h
  | cons c rest ih =>
    intro ds h
    simp only [monitor_endpoints]
    by_cases he : c.endpoints.isEmpty = true
    · rw [if_pos he]
      exact h
    · rw [if_neg he]
      exact ih _ (DomainTotalsPos_fold _ _ (DomainTotalsPos_clean _ h))

/-- C10: the global `domain_stats` starts empty, entries are created
only by the `total += 1` access and pruning only deletes entries, so
every entry reachable by the monitor loop has `total ≥ 1`; hence the
report step's `round(100 * stats["up"] / stats["total"])` never divides
by zero (its denominator, cast to the exact rationals, is nonzero). -/
theorem C10_domain_total_positive (ins : List CycleInput) (p : String × Stats)
    (hp : p ∈ (monitor_endpoints [] ins).1) :
    1 ≤ p.2.total ∧ ((p.2.total : ℚ) ≠ 0) := by
  have h1 : 1 ≤ p.2.total :=
    DomainTotalsPos_monitor ins [] (fun q hq => absurd hq (List.not_mem_nil q)) p hp
  refine ⟨h1, ?_⟩
  exact_mod_cast Nat.pos_iff_ne_zero.mp h1

/-- C10 witness: after one cycle with one UP probe, the recorded domain
entry has total 1 and a nonzero rational denominator. -/
theorem C10_domain_total_positive_witness :
    1 ≤ (("svc1.example.com", ({ up := 1, total := 1 } : Stats))).2.total ∧
    (((("svc1.example.com", ({ up := 1, total := 1 } : Stats))).2.total : ℚ) ≠ 0) :=
  C10_domain_total_positive [{ endpoints := [epX], results := ["UP"] }] _ (by decide)


/-! ### C9 — domain derivation -/

theorem pySplitScheme_http (r : List Char) :
    pySplitScheme ('h' :: 't' :: 't' :: 'p' :: ':' :: r) = r := rfl

theorem dlookup_removeNames_not_mem {n : Option String} :
    ∀ (names : List (Option String)) (eps : List (Option String × EndpointConfig)),
      n ∉ names → dlookup n (removeNames eps names) = dlookup n eps := by
  intro names
  induction names with
  | nil => intro eps _; rfl
  | cons x xs ih =>
    intro eps h
    simp only [removeNames, List.foldl_cons] at *
    rw [ih _ (fun hx => h (List.mem_cons_of_mem _ hx))]
    exact dlookup_derase_ne (fun e => h (by rw [e]; exact List.mem_cons_self x xs))

theorem mem_dkeys_removeNames {n : Option String} :
    ∀ (names : List (Option String)) (eps : List (Option String × EndpointConfig)),
      (n ∈ dkeys (removeNames eps names) ↔ n ∈ dkeys eps ∧ n ∉ names) := by
  intro names
  induction names with
  | nil => intro eps; simp [removeNames]
  | cons x xs ih =>
    intro eps
    simp only [removeNames, List.foldl_cons] at *
    rw [ih (derase x eps), mem_dkeys_derase]
    simp only [List.mem_cons, not_or]
    tauto

/-- C4 counterexample: a declaration missing a required field — `url`
or `name`, both positional parameters of `EndpointConfig.__init__` with
no default — raises a `TypeError` inside the `for ep in config_data`
loop that is NOT caught by the `except (FileNotFoundError,
yaml.YAMLError)` clause: it propagates out of `_load_file` — and hence
out of `refresh`, aborting the polling loop — contradicting the claim
that a missing required field is recovered locally. -/
theorem C4_counterexample :
    (_load_file initLoader "a.yaml" (.present 1 (.decls [declNoUrl]))).2 =
      some PyError.typeError ∧
    (_load_file initLoader "a.yaml" (.present 1 (.decls [declNoName]))).2 =
      some PyError.typeError := by
  decide

/-- C4 amended: only the caught failures — FileNotFoundError (missing
file) and `yaml.YAMLError` (malformed content) — are recovered locally:
no exception escapes, the failing source's previously loaded endpoints
are removed, other sources' tracking entries survive, and endpoint
names not owned by the failing source keep their mapping entries.  A
declaration missing a required field — `name` or `url` — by contrast
raises an uncaught `TypeError` (see the counterexample). -/
theorem C4_amended (st : ConfigLoader) (fp : String) (m : Nat)
    (hm : dlookup fp st.mod_times ≠ some m)
    (names : List (Option String))
    (hn : dlookup fp st.file_endpoints = some names) :
    (_load_file st fp .missing).2 = none ∧
    (_load_file st fp (.present m .yamlError)).2 = none ∧
    (_load_file st fp (.present m .yamlError)).1 = (_load_file st fp .missing).1 ∧
    (∀ n ∈ names, n ∉ dkeys ((_load_file st fp .missing).1).endpoints) ∧
    (∀ p ∈ st.file_endpoints, p.1 ≠ fp →
      p ∈ ((_load_file st fp .missing).1).file_endpoints) ∧
    (∀ n, n ∉ names →
      dlookup n ((_load_file st fp .missing).1).endpoints = dlookup n st.endpoints) := by
  have h1 : _load_file st fp .missing = (_remove_file_endpoints st fp, none) := rfl
  have h2 : _load_file st fp (.present m .yamlError) =
      (_remove_file_endpoints st fp, none) := by
    simp only [_load_file]
    rw [if_neg hm]
  have h3 : _remove_file_endpoints st fp =
      { endpoints := removeNames st.endpoints names,
        file_endpoints := derase fp st.file_endpoints,
        mod_times := derase fp st.mod_times } := by
    simp only [_remove_file_endpoints, hn]
  refine ⟨by rw [h1], by rw [h2], by rw [h1, h2], ?_, ?_, ?_⟩
  · intro n hmem
    simp only [h1, h3]
    rw [mem_dkeys_removeNames]
    rintro ⟨h4, h5⟩
    exact h5 hmem
  · intro p hp hne
    simp only [h1, h3]
    exact mem_derase.mpr ⟨hp, hne⟩
  · intro n hnmem
    simp only [h1, h3]
    exact dlookup_removeNames_not_mem _ _ hnmem

/-- A two-source loader state: `x` from `a.yaml`, `p` from `b.yaml`. -/
def stTwo : ConfigLoader :=
  { endpoints := [(some "x", epX), (some "p", epPost)],
    file_endpoints := [("a.yaml", [some "x"]), ("b.yaml", [some "p"])],
    mod_times := [("a.yaml", 1), ("b.yaml", 1)] }

/-- C4 amended witness: when `a.yaml` disappears, no error escapes, its
endpoint `x` is dropped, and `b.yaml`'s endpoint `p` is untouched. -/
theorem C4_amended_witness :
    (_load_file stTwo "a.yaml" .missing).2 = none ∧
    (some "x") ∉ dkeys ((_load_file stTwo "a.yaml" .missing).1).endpoints ∧
    dlookup (some "p") ((_load_file stTwo "a.yaml" .missing).1).endpoints =
      dlookup (some "p") stTwo.endpoints := by
  have h := C4_amended stTwo "a.yaml" 2 (by decide) [some "x"] (by decide)
  exact ⟨h.1, h.2.2.2.1 (some "x") (by decide), h.2.2.2.2.2 (some "p") (by decide)⟩


/-! ### C5 — the source-tracking invariant -/

instance decGoodEvent (st : ConfigLoader) (ev : FsEvent) : Decidable (GoodEvent st ev) :=
  match ev with
  | .fileSeen _ (.present _ (.decls _)) => inferInstanceAs (Decidable (_ ∧ _))
  | .fileSeen _ (.present _ .yamlError) => isTrue trivial
  | .fileSeen _ .missing => isTrue trivial
  | .fileGone _ => isTrue trivial

instance decGoodSeq : (st : ConfigLoader) → (evs : List FsEvent) → Decidable (GoodSeq st evs)
  | _, [] => isTrue trivial
  | st, ev :: rest =>
    @instDecidableAnd _ _ (decGoodEvent st ev) (decGoodSeq (applyEvent st ev).1 rest)

end Monitor
